import Mathlib

/-!  Shallow embedding of the stateless JWT session-authentication subsystem of
the subpool-worker repository (canonical implementation: src/services/auth.js;
the simpler near-duplicate sits alongside the view layer).  JS strings are
modeled as lists of character codes; the platform builtins `btoa`/`atob` are
modeled as standard base64 over latin-1 strings; HMAC-SHA256 and JSON
stringify/parse are platform primitives and are taken as abstract function
parameters of the operations that use them. -/

/-- JS strings, as lists of character codes. -/
abbrev Str := List Nat

/-- Character codes of a Lean string literal, for readable constants. -/
def codes (s : String) : Str := s.data.map (fun c => c.toNat)

/-- The standard base64 alphabet: index 0..63 to character code. -/
def b64char (n : Nat) : Nat :=
  if n < 26 then 65 + n
  else if n < 52 then 97 + (n - 26)
  else if n < 62 then 48 + (n - 52)
  else if n = 62 then 43
  else 47

/-- Inverse of the base64 alphabet: character code to index, `none` off-alphabet
(in particular `none` at 61, the code of the padding character). -/
def b64inv (c : Nat) : Option Nat :=
  if 65 ≤ c ∧ c ≤ 90 then some (c - 65)
  else if 97 ≤ c ∧ c ≤ 122 then some (26 + (c - 97))
  else if 48 ≤ c ∧ c ≤ 57 then some (52 + (c - 48))
  else if c = 43 then some 62
  else if c = 47 then some 63
  else none

/-- The `btoa` builtin: standard base64 encoding of a byte string (each input
code must be < 256), with `=` (code 61) padding. -/
def btoa : Str → Str
  | [] => []
  | [a] => [b64char (a / 4), b64char (a % 4 * 16), 61, 61]
  | [a, b] => [b64char (a / 4), b64char (a % 4 * 16 + b / 16), b64char (b % 16 * 4), 61]
  | a :: b :: c :: rest =>
      b64char (a / 4) :: b64char (a % 4 * 16 + b / 16) ::
        b64char (b % 16 * 4 + c / 64) :: b64char (c % 64) :: btoa rest

/-- The `atob` builtin: standard base64 decoding in four-character groups, `=`
padding allowed only in the final group, leftover bits discarded.  Inputs whose
length is not a multiple of 4 yield `none`; in this repository `atob` is only
reached after re-padding, so only such inputs occur. -/
def atob : Str → Option Str
  | c1 :: c2 :: c3 :: c4 :: rest =>
      match b64inv c1, b64inv c2 with
      | some x1, some x2 =>
          if c3 = 61 then
            if c4 = 61 ∧ rest = [] then some [x1 * 4 + x2 / 16] else none
          else
            match b64inv c3 with
            | some x3 =>
                if c4 = 61 then
                  if rest = [] then some [x1 * 4 + x2 / 16, x2 % 16 * 16 + x3 / 4] else none
                else
                  match b64inv c4 with
                  | some x4 =>
                      match atob rest with
                      | some tail =>
                          some ((x1 * 4 + x2 / 16) :: (x2 % 16 * 16 + x3 / 4) ::
                            (x3 % 4 * 64 + x4) :: tail)
                      | none => none
                  | none => none
            | none => none
      | _, _ => none
  | [] => some []
  | _ => none

/-- Replacement of every '+' (43) by '-' (45), as a character map. -/
def subPlus (c : Nat) : Nat := if c = 43 then 45 else c

/-- Replacement of every slash (47) by '_' (95), as a character map. -/
def subSlash (c : Nat) : Nat := if c = 47 then 95 else c

/-- Replacement of every '-' (45) by '+' (43), as a character map. -/
def subDash (c : Nat) : Nat := if c = 45 then 43 else c

/-- Replacement of every '_' (95) by a slash (47), as a character map. -/
def subUnderscore (c : Nat) : Nat := if c = 95 then 47 else c

/-- src/services/auth.js lines 18-23 (`base64UrlEncode`): `btoa`, then
substitute `+` to `-`, `/` to `_`, strip `=`. -/
def base64UrlEncode (s : Str) : Str :=
  (((btoa s).map subPlus).map subSlash).filter (fun c => c != 61)

/-- The `while (str.length % 4) str += '='` re-padding loop. -/
def padEq (s : Str) : Str := s ++ List.replicate ((4 - s.length % 4) % 4) 61

/-- src/services/auth.js lines 30-36 (`base64UrlDecode`): reverse substitution,
re-pad to a multiple of 4 with `=`, then `atob`.  `none` models the exception
`atob` throws on malformed input. -/
def base64UrlDecode (s : Str) : Option Str :=
  atob (padEq ((s.map subDash).map subUnderscore))

lemma b64inv_b64char : ∀ n, n < 64 → b64inv (b64char n) = some n := by decide

lemma b64char_ne_61 (n : Nat) : b64char n ≠ 61 := by
  unfold b64char; split_ifs <;> omega

lemma encSub_ne_61 (n : Nat) : (subSlash (subPlus (b64char n)) != 61) = true := by
  have h : subSlash (subPlus (b64char n)) ≠ 61 := by
    unfold b64char subPlus subSlash; split_ifs <;> omega
  simpa using h

lemma decSub_encSub : ∀ n, n < 64 →
    subUnderscore (subDash (subSlash (subPlus (b64char n)))) = b64char n := by decide

lemma sub61 : subSlash (subPlus 61) = 61 := by decide

lemma base64UrlEncode_nil : base64UrlEncode [] = [] := by decide

lemma base64UrlEncode_one (a : Nat) :
    base64UrlEncode [a] =
      [subSlash (subPlus (b64char (a / 4))), subSlash (subPlus (b64char (a % 4 * 16)))] := by
  simp only [base64UrlEncode, btoa, List.map_cons, List.map_nil, sub61]
  rw [List.filter_cons_of_pos, List.filter_cons_of_pos]
  · simp
  · exact encSub_ne_61 _
  · exact encSub_ne_61 _

lemma base64UrlEncode_two (a b : Nat) :
    base64UrlEncode [a, b] =
      [subSlash (subPlus (b64char (a / 4))), subSlash (subPlus (b64char (a % 4 * 16 + b / 16))),
        subSlash (subPlus (b64char (b % 16 * 4)))] := by
  simp only [base64UrlEncode, btoa, List.map_cons, List.map_nil, sub61]
  rw [List.filter_cons_of_pos, List.filter_cons_of_pos, List.filter_cons_of_pos]
  · simp
  · exact encSub_ne_61 _
  · exact encSub_ne_61 _
  · exact encSub_ne_61 _

lemma base64UrlEncode_cons3 (a b c : Nat) (rest : Str) :
    base64UrlEncode (a :: b :: c :: rest) =
      subSlash (subPlus (b64char (a / 4))) :: subSlash (subPlus (b64char (a % 4 * 16 + b / 16))) ::
      subSlash (subPlus (b64char (b % 16 * 4 + c / 64))) :: subSlash (subPlus (b64char (c % 64))) ::
      base64UrlEncode rest := by
  simp only [base64UrlEncode, btoa, List.map_cons]
  rw [List.filter_cons_of_pos, List.filter_cons_of_pos, List.filter_cons_of_pos,
    List.filter_cons_of_pos]
  · exact encSub_ne_61 _
  · exact encSub_ne_61 _
  · exact encSub_ne_61 _
  · exact encSub_ne_61 _

lemma padEq_cons4 (c1 c2 c3 c4 : Nat) (t : Str) :
    padEq (c1 :: c2 :: c3 :: c4 :: t) = c1 :: c2 :: c3 :: c4 :: padEq t := by
  unfold padEq
  have h : (c1 :: c2 :: c3 :: c4 :: t).length % 4 = t.length % 4 := by
    simp [List.length_cons]; omega
  rw [h]
  simp [List.cons_append]

lemma atob_chunk (x1 x2 x3 x4 : Nat) (h1 : x1 < 64) (h2 : x2 < 64) (h3 : x3 < 64)
    (h4 : x4 < 64) (T t : Str) (hT : atob T = some t) :
    atob (b64char x1 :: b64char x2 :: b64char x3 :: b64char x4 :: T) =
      some ((x1 * 4 + x2 / 16) :: (x2 % 16 * 16 + x3 / 4) :: (x3 % 4 * 64 + x4) :: t) := by
  simp only [atob, b64inv_b64char _ h1, b64inv_b64char _ h2, b64inv_b64char _ h3,
    b64inv_b64char _ h4, if_neg (b64char_ne_61 x3), if_neg (b64char_ne_61 x4), hT]

lemma roundtrip_aux : ∀ (n : Nat) (s : Str), s.length ≤ n → (∀ b ∈ s, b < 256) →
    base64UrlDecode (base64UrlEncode s) = some s := by
  intro n
  induction n with
  | zero =>
    intro s hlen _
    have : s = [] := List.length_eq_zero.mp (Nat.le_zero.mp hlen)
    subst this
    decide
  | succ n ih =>
    intro s hlen hb
    rcases s with _ | ⟨a, _ | ⟨b, _ | ⟨c, rest⟩⟩⟩
    · decide
    · -- one trailing byte
      have ha : a < 256 := hb a (by simp)
      rw [base64UrlEncode_one]
      simp only [base64UrlDecode, List.map_cons, List.map_nil,
        decSub_encSub _ (by omega : a / 4 < 64), decSub_encSub _ (by omega : a % 4 * 16 < 64)]
      have hpad : padEq [b64char (a / 4), b64char (a % 4 * 16)] =
          [b64char (a / 4), b64char (a % 4 * 16), 61, 61] := by
        simp [padEq, List.replicate]
      rw [hpad]
      simp only [atob, b64inv_b64char _ (by omega : a / 4 < 64),
        b64inv_b64char _ (by omega : a % 4 * 16 < 64)]
      simp only [if_pos rfl, and_self, if_true]
      congr 2
      omega
    · -- two trailing bytes
      have ha : a < 256 := hb a (by simp)
      have hbb : b < 256 := hb b (by simp)
      rw [base64UrlEncode_two]
      simp only [base64UrlDecode, List.map_cons, List.map_nil,
        decSub_encSub _ (by omega : a / 4 < 64),
        decSub_encSub _ (by omega : a % 4 * 16 + b / 16 < 64),
        decSub_encSub _ (by omega : b % 16 * 4 < 64)]
      have hpad : padEq [b64char (a / 4), b64char (a % 4 * 16 + b / 16), b64char (b % 16 * 4)] =
          [b64char (a / 4), b64char (a % 4 * 16 + b / 16), b64char (b % 16 * 4), 61] := by
        simp [padEq, List.replicate]
      rw [hpad]
      simp only [atob, b64inv_b64char _ (by omega : a / 4 < 64),
        b64inv_b64char _ (by omega : a % 4 * 16 + b / 16 < 64),
        b64inv_b64char _ (by omega : b % 16 * 4 < 64),
        if_neg (b64char_ne_61 (b % 16 * 4)), if_pos rfl, if_true]
      congr 2
      · omega
      · congr 1
        omega
    · -- a full three-byte chunk followed by the remainder
      have ha : a < 256 := hb a (by simp)
      have hbb : b < 256 := hb b (by simp)
      have hcc : c < 256 := hb c (by simp)
      have hrest : ∀ x ∈ rest, x < 256 := fun x hx => hb x (by simp [hx])
      have hlen' : rest.length ≤ n := by
        have h3 : (a :: b :: c :: rest).length = rest.length + 3 := by simp
        omega
      have IH := ih rest hlen' hrest
      rw [base64UrlEncode_cons3 a b c rest]
      simp only [base64UrlDecode, List.map_cons] at IH ⊢
      rw [decSub_encSub _ (by omega : a / 4 < 64),
        decSub_encSub _ (by omega : a % 4 * 16 + b / 16 < 64),
        decSub_encSub _ (by omega : b % 16 * 4 + c / 64 < 64),
        decSub_encSub _ (by omega : c % 64 < 64), padEq_cons4,
        atob_chunk (a / 4) (a % 4 * 16 + b / 16) (b % 16 * 4 + c / 64) (c % 64)
          (by omega) (by omega) (by omega) (by omega) _ rest IH]
      have e1 : a / 4 * 4 + (a % 4 * 16 + b / 16) / 16 = a := by omega
      have e2 : (a % 4 * 16 + b / 16) % 16 * 16 + (b % 16 * 4 + c / 64) / 4 = b := by omega
      have e3 : (b % 16 * 4 + c / 64) % 4 * 64 + c % 64 = c := by omega
      rw [e1, e2, e3]

/-- C9: the URL-safe base64 codec round-trips on every byte string. -/
theorem base64Url_round_trip (s : Str) (hs : ∀ b ∈ s, b < 256) :
    base64UrlDecode (base64UrlEncode s) = some s :=
  roundtrip_aux s.length s le_rfl hs

/-- Witness for C9 at the concrete byte string "Man". -/
theorem base64Url_round_trip_witness :
    (∀ b ∈ codes "Man", b < 256) ∧
      base64UrlDecode (base64UrlEncode (codes "Man")) = some (codes "Man") :=
  ⟨by decide, base64Url_round_trip (codes "Man") (by decide)⟩

/-- JSON claim values occurring in this subsystem: numbers and strings.
(Booleans, null, arrays and nested objects never appear in the payloads the
module builds, and a non-object `JSON.parse` result behaves, for the property
accesses the verifier performs, exactly like an empty mapping.) -/
inductive JVal
  | num (n : Int)
  | str (s : Str)
deriving DecidableEq

/-- A JS object of claims: an association list keyed by string, first
occurrence significant (a JS object has unique keys). -/
abbrev ClaimMap := List (Str × JVal)

/-- JS property read `m.k`: `none` models `undefined`. -/
def lookupClaim (m : ClaimMap) (k : Str) : Option JVal :=
  match m with
  | [] => none
  | (k', v) :: rest => if k' = k then some v else lookupClaim rest k

/-- JS object-literal update `{...m, k: v}` restricted to the key `k`: an
existing key keeps its position and gets the new value, a new key is appended. -/
def setClaim (m : ClaimMap) (k : Str) (v : JVal) : ClaimMap :=
  match m with
  | [] => [(k, v)]
  | (k', v') :: rest => if k' = k then (k, v) :: rest else (k', v') :: setClaim rest k v

/-- JS truthiness of a possibly-`undefined` claim value. -/
def truthy : Option JVal → Bool
  | none => false
  | some (.num n) => n != 0
  | some (.str s) => s != []

/-- JS ToNumber on an integer-numeral string: the empty string is 0, a digit
string is its value, anything else is NaN (`none`).  (Sign/whitespace/decimal
forms never occur in this module's payloads.) -/
def strToNum (s : Str) : Option Int :=
  if s = [] then some 0
  else if s.all (fun c => 48 ≤ c && c ≤ 57) then
    some (s.foldl (fun acc c => acc * 10 + ((c : Int) - 48)) 0)
  else none

/-- JS ToNumber of a claim value; `none` models NaN. -/
def toNumber : JVal → Option Int
  | .num n => some n
  | .str s => strToNum s

/-- JS `v < m` for a possibly-`undefined` claim value against a number
(`undefined` and NaN compare false). -/
def jsLt (v : Option JVal) (m : Int) : Bool :=
  match v with
  | none => false
  | some v =>
    match toNumber v with
    | none => false
    | some n => n < m

/-- JS `v > m` for a possibly-`undefined` claim value against a number. -/
def jsGt (v : Option JVal) (m : Int) : Bool :=
  match v with
  | none => false
  | some v =>
    match toNumber v with
    | none => false
    | some n => m < n

/-- JS strict equality `v === s` against a fixed string (false for
`undefined`, numbers, or a different string). -/
def jsStrictEqStr (v : Option JVal) (s : Str) : Bool :=
  match v with
  | some (.str t) => decide (t = s)
  | _ => false

/-- CONFIG.COOKIE_NAME (src/services/auth.js line 2). -/
def CONFIG_COOKIE_NAME : Str := codes "auth_token"

/-- CONFIG.DEFAULT_EXPIRATION (line 3): 8 hours in seconds. -/
def CONFIG_DEFAULT_EXPIRATION : Int := 8 * 60 * 60

/-- CONFIG.COOKIE_PATH (line 6). -/
def CONFIG_COOKIE_PATH : Str := codes "/admin"

/-- CONFIG.TOKEN_ISSUER (line 7). -/
def CONFIG_TOKEN_ISSUER : Str := codes "web-app"

/-- CONFIG.TOKEN_AUDIENCE (line 8). -/
def CONFIG_TOKEN_AUDIENCE : Str := codes "web-app-users"

def keyIat : Str := codes "iat"

def keyExp : Str := codes "exp"

def keyIss : Str := codes "iss"

def keyAud : Str := codes "aud"

/-- `JSON.stringify({ alg: CONFIG.ALGORITHM, typ: 'JWT' })`, the fixed header
of every issued token (line 73). -/
def headerJson : Str := codes "\x7b\"alg\":\"HS256\",\"typ\":\"JWT\"\x7d"

/-- Lines 76-83 of src/services/auth.js: the payload actually signed,
`{...payload, iat: now, exp: now + CONFIG.DEFAULT_EXPIRATION, iss, aud}` -
caller claims spread first, the four standard claims stamped over them. -/
def stampClaims (payload : ClaimMap) (now : Int) : ClaimMap :=
  setClaim (setClaim (setClaim (setClaim payload
        keyIat (JVal.num now))
      keyExp (JVal.num (now + CONFIG_DEFAULT_EXPIRATION)))
    keyIss (JVal.str CONFIG_TOKEN_ISSUER))
  keyAud (JVal.str CONFIG_TOKEN_AUDIENCE)

/-- src/services/auth.js lines 65-104 (`createJwt`).  `hmac` abstracts
HMAC-SHA256 (secret, message to raw signature bytes), `stringify` abstracts
`JSON.stringify` on the payload object; both are platform primitives.  `none`
models the exception thrown on a falsy secret (`logger.fatal` + `throw`); no
other path of the function throws under total `hmac`/`stringify`.  There is no
lifetime parameter: the expiry offset is the fixed
`CONFIG.DEFAULT_EXPIRATION`. -/
def createJwt (hmac : Str → Str → Str) (stringify : ClaimMap → Str)
    (secret : Str) (payload : ClaimMap) (now : Int) : Option Str :=
  if secret = [] then none
  else
    let jwtPayload := stampClaims payload now
    let encodedHeader := base64UrlEncode headerJson
    let encodedPayload := base64UrlEncode (stringify jwtPayload)
    let signingInput := encodedHeader ++ [46] ++ encodedPayload
    some (signingInput ++ [46] ++ base64UrlEncode (hmac secret signingInput))

/-- JS `String.prototype.split('.')`: 46 is the code of the dot. -/
def splitDots : Str → List Str
  | [] => [[]]
  | c :: rest =>
    if c = 46 then [] :: splitDots rest
    else
      match splitDots rest with
      | [] => [[c]]
      | t :: ts => (c :: t) :: ts

/-- Exceptions that can be raised inside the `try` block of `verifyJwt`:
`atob` decode errors and `JSON.parse` errors. -/
inductive VerifyErr
  | decodeErr
  | parseErr
deriving DecidableEq

/-- Claim validation, lines 141-164 of src/services/auth.js: the expiry check
runs only when `exp` is present and truthy and uses strict `<` against `now`;
the issued-in-future check runs only when `iat` is present and truthy; issuer
and audience are compared by strict equality.  On full success the function
returns the literal boolean `true` (line 164), not the payload object. -/
def claimChecks (payloadData : ClaimMap) (now : Int) : Bool :=
  let expV := lookupClaim payloadData keyExp
  if truthy expV && jsLt expV now then false
  else
    let iatV := lookupClaim payloadData keyIat
    if truthy iatV && jsGt iatV now then false
    else
      if !(jsStrictEqStr (lookupClaim payloadData keyIss) CONFIG_TOKEN_ISSUER &&
            jsStrictEqStr (lookupClaim payloadData keyAud) CONFIG_TOKEN_AUDIENCE) then false
      else true

/-- The `try` block of `verifyJwt` (lines 118-164): split, shape check,
signature check, payload decode + parse, claim checks.  `parse` abstracts
`JSON.parse` composed with reading the result as a claim mapping (`none` models
both a parse exception and any non-decodable payload).  `Except.error` marks
the paths on which the JS code raises, `Except.ok` the normal returns. -/
def verifyJwtBody (hmac : Str → Str → Str) (parse : Str → Option ClaimMap)
    (secret token : Str) (now : Int) : Except VerifyErr Bool :=
  let segs := splitDots token
  match segs.get? 0, segs.get? 1, segs.get? 2 with
  | some header, some payload, some signature =>
    if header = [] ∨ payload = [] ∨ signature = [] then .ok false
    else
      match base64UrlDecode signature with
      | none => .error .decodeErr
      | some sigBytes =>
        if sigBytes ≠ hmac secret (header ++ [46] ++ payload) then .ok false
        else
          match base64UrlDecode payload with
          | none => .error .decodeErr
          | some payloadJson =>
            match parse payloadJson with
            | none => .error .parseErr
            | some payloadData => .ok (claimChecks payloadData now)
  | _, _, _ => .ok false

/-- src/services/auth.js lines 112-169 (`verifyJwt`): falsy-argument guard,
then the `try` body with every raised exception converted to `false` by the
`catch`.  The function's value is always a boolean - `true` on success (line
164), `false` otherwise - although its JSDoc promises the decoded payload. -/
def verifyJwt (hmac : Str → Str → Str) (parse : Str → Option ClaimMap)
    (secret token : Str) (now : Int) : Bool :=
  if secret = [] ∨ token = [] then false
  else
    match verifyJwtBody hmac parse secret token now with
    | .ok b => b
    | .error _ => false

/-- src/services/auth.js lines 235-254 (`refreshJwt`).  The verified value is
the boolean `true`, so the rest-destructuring
`const { iat, exp, ...originalPayload } = payload` yields an empty object and
the re-issued token carries no custom claims.  (The inner `verifyJwt` call is
made without a logger; on failing paths that raises inside `verifyJwt` and is
swallowed by the surrounding catch, which also returns null, so the observable
result is unchanged.) -/
def refreshJwt (hmac : Str → Str → Str) (parse : Str → Option ClaimMap)
    (stringify : ClaimMap → Str) (secret token : Str) (now : Int) : Option Str :=
  if secret = [] ∨ token = [] then none
  else
    let payload := verifyJwt hmac parse secret token now
    if payload = false then none
    else createJwt hmac stringify secret [] now

/-- The cookie options object of `createAuthCookie`; `none` on a field means
the caller did not supply it, so the destructuring default applies. -/
structure CookieOptions where
  path : Option Str
  domain : Option Str
  secure : Option Bool
  sameSite : Option Str

/-- The options argument default `options = {}`. -/
def defaultCookieOptions : CookieOptions := ⟨none, none, none, none⟩

/-- JS `Array.prototype.join('; ')`. -/
def joinSemi : List Str → Str
  | [] => []
  | [x] => x
  | x :: xs => x ++ codes "; " ++ joinSemi xs

/-- Decimal rendering of the max-age number in the template string. -/
def intToStr (n : Int) : Str := codes (toString n)

/-- src/services/auth.js lines 203-226 (`createAuthCookie`).  `none` models the
exception on a falsy token (a non-number or NaN `maxAge` is not representable
in this embedding, where `maxAge : Int`).  Note the emitted attributes are
`HttpOnly=true` and `Secure=true`/`Secure=false` - never the bare `HttpOnly` and
`Secure` flags, and `Secure` is never omitted. -/
def createAuthCookie (token : Str) (maxAge : Int) (options : CookieOptions) : Option Str :=
  if token = [] then none
  else
    let path := options.path.getD CONFIG_COOKIE_PATH
    let domain := options.domain.getD []
    let secure := options.secure.getD true
    let sameSite := options.sameSite.getD (codes "Strict")
    some (joinSemi
      ([CONFIG_COOKIE_NAME ++ [61] ++ token,
        codes "Path=" ++ path,
        codes "Max-Age=" ++ intToStr maxAge,
        codes "HttpOnly=true",
        codes "Secure=" ++ (if secure then codes "true" else codes "false"),
        codes "SameSite=" ++ sameSite] ++
       (if domain ≠ [] then [codes "Domain=" ++ domain] else [])))

lemma lookupClaim_setClaim_self (m : ClaimMap) (k : Str) (v : JVal) :
    lookupClaim (setClaim m k v) k = some v := by
  induction m with
  | nil => simp [setClaim, lookupClaim]
  | cons kv rest ih =>
    obtain ⟨k', v'⟩ := kv
    by_cases h : k' = k
    · simp [setClaim, h, lookupClaim]
    · simp [setClaim, h, lookupClaim, ih]

lemma lookupClaim_setClaim_other (m : ClaimMap) (k k' : Str) (v : JVal) (h : k' ≠ k) :
    lookupClaim (setClaim m k v) k' = lookupClaim m k' := by
  induction m with
  | nil => simp [setClaim, lookupClaim, Ne.symm h]
  | cons kv rest ih =>
    obtain ⟨k0, v0⟩ := kv
    by_cases h0 : k0 = k
    · subst h0
      simp [setClaim, lookupClaim, Ne.symm h]
    · simp [setClaim, h0, lookupClaim, ih]

lemma stampClaims_iat (c : ClaimMap) (now : Int) :
    lookupClaim (stampClaims c now) keyIat = some (JVal.num now) := by
  unfold stampClaims
  rw [lookupClaim_setClaim_other _ _ _ _ (by decide),
    lookupClaim_setClaim_other _ _ _ _ (by decide),
    lookupClaim_setClaim_other _ _ _ _ (by decide),
    lookupClaim_setClaim_self]

lemma stampClaims_exp (c : ClaimMap) (now : Int) :
    lookupClaim (stampClaims c now) keyExp =
      some (JVal.num (now + CONFIG_DEFAULT_EXPIRATION)) := by
  unfold stampClaims
  rw [lookupClaim_setClaim_other _ _ _ _ (by decide),
    lookupClaim_setClaim_other _ _ _ _ (by decide),
    lookupClaim_setClaim_self]

lemma stampClaims_iss (c : ClaimMap) (now : Int) :
    lookupClaim (stampClaims c now) keyIss = some (JVal.str CONFIG_TOKEN_ISSUER) := by
  unfold stampClaims
  rw [lookupClaim_setClaim_other _ _ _ _ (by decide), lookupClaim_setClaim_self]

lemma stampClaims_aud (c : ClaimMap) (now : Int) :
    lookupClaim (stampClaims c now) keyAud = some (JVal.str CONFIG_TOKEN_AUDIENCE) := by
  unfold stampClaims
  rw [lookupClaim_setClaim_self]

lemma stampClaims_other (c : ClaimMap) (now : Int) (k : Str) (h1 : k ≠ keyIat)
    (h2 : k ≠ keyExp) (h3 : k ≠ keyIss) (h4 : k ≠ keyAud) :
    lookupClaim (stampClaims c now) k = lookupClaim c k := by
  unfold stampClaims
  rw [lookupClaim_setClaim_other _ _ _ _ h4, lookupClaim_setClaim_other _ _ _ _ h3,
    lookupClaim_setClaim_other _ _ _ _ h2, lookupClaim_setClaim_other _ _ _ _ h1]

lemma btoa_mem_aux : ∀ (n : Nat) (s : Str), s.length ≤ n →
    ∀ c ∈ btoa s, c = 61 ∨ ∃ k, c = b64char k := by
  intro n
  induction n with
  | zero =>
    intro s hlen c hc
    have : s = [] := List.length_eq_zero.mp (Nat.le_zero.mp hlen)
    subst this
    simp [btoa] at hc
  | succ n ih =>
    intro s hlen c hc
    rcases s with _ | ⟨a, _ | ⟨b, _ | ⟨d, rest⟩⟩⟩
    · simp [btoa] at hc
    · simp only [btoa, List.mem_cons, List.not_mem_nil, or_false] at hc
      rcases hc with rfl | rfl | rfl | rfl
      · exact Or.inr ⟨_, rfl⟩
      · exact Or.inr ⟨_, rfl⟩
      · exact Or.inl rfl
      · exact Or.inl rfl
    · simp only [btoa, List.mem_cons, List.not_mem_nil, or_false] at hc
      rcases hc with rfl | rfl | rfl | rfl
      · exact Or.inr ⟨_, rfl⟩
      · exact Or.inr ⟨_, rfl⟩
      · exact Or.inr ⟨_, rfl⟩
      · exact Or.inl rfl
    · have hlen' : rest.length ≤ n := by
        have h3 : (a :: b :: d :: rest).length = rest.length + 3 := by simp
        omega
      simp only [btoa, List.mem_cons] at hc
      rcases hc with rfl | rfl | rfl | rfl | h
      · exact Or.inr ⟨_, rfl⟩
      · exact Or.inr ⟨_, rfl⟩
      · exact Or.inr ⟨_, rfl⟩
      · exact Or.inr ⟨_, rfl⟩
      · exact ih rest hlen' c h

lemma encChar_ne_46 (x : Nat) (hx : x = 61 ∨ ∃ k, x = b64char k) :
    subSlash (subPlus x) ≠ 46 := by
  rcases hx with h | ⟨k, h⟩ <;> subst h
  · decide
  · unfold b64char subPlus subSlash; split_ifs <;> omega

lemma not_dot_in_encode (s : Str) : 46 ∉ base64UrlEncode s := by
  intro hmem
  unfold base64UrlEncode at hmem
  have h2 := List.mem_of_mem_filter hmem
  rcases List.mem_map.mp h2 with ⟨y, hy, hey⟩
  rcases List.mem_map.mp hy with ⟨x, hx, hex⟩
  have hcls := btoa_mem_aux s.length s le_rfl x hx
  subst hex
  exact encChar_ne_46 x hcls hey

lemma base64UrlEncode_ne_nil (s : Str) (h : s ≠ []) : base64UrlEncode s ≠ [] := by
  rcases s with _ | ⟨a, _ | ⟨b, _ | ⟨c, rest⟩⟩⟩
  · exact absurd rfl h
  · rw [base64UrlEncode_one]; simp
  · rw [base64UrlEncode_two]; simp
  · rw [base64UrlEncode_cons3]; simp

lemma splitDots_no_dot (s : Str) (h : 46 ∉ s) : splitDots s = [s] := by
  induction s with
  | nil => rfl
  | cons c t ih =>
    have hc : c ≠ 46 := fun hh => h (by simp [hh])
    have ht : 46 ∉ t := fun hh => h (by simp [hh])
    simp only [splitDots, if_neg hc, ih ht]

lemma splitDots_dot_append (a t : Str) (h : 46 ∉ a) :
    splitDots (a ++ 46 :: t) = a :: splitDots t := by
  induction a with
  | nil => simp [splitDots]
  | cons c a' ih =>
    have hc : c ≠ 46 := fun hh => h (by simp [hh])
    have ha' : 46 ∉ a' := fun hh => h (by simp [hh])
    simp only [List.cons_append, splitDots, if_neg hc, List.append_eq, ih ha']

/-- A well-signed three-segment token over header segment `h` and payload
segment `p`: the shape produced by `createJwt` and by any re-signing of a
crafted payload with the real secret. -/
def signedToken (hmac : Str → Str → Str) (secret h p : Str) : Str :=
  h ++ [46] ++ p ++ [46] ++ base64UrlEncode (hmac secret (h ++ [46] ++ p))

/-- What `verifyJwt` computes once the signature over a well-formed token has
been accepted: decode and parse the payload segment (failure is an exception
caught to `false`), then run the claim checks.  The header segment does not
occur. -/
def afterSig (parse : Str → Option ClaimMap) (p : Str) (now : Int) : Bool :=
  match base64UrlDecode p with
  | none => false
  | some pj =>
    match parse pj with
    | none => false
    | some m => claimChecks m now

lemma splitDots_signedToken (hmac : Str → Str → Str) (secret h p : Str)
    (hdh : 46 ∉ h) (hdp : 46 ∉ p) :
    splitDots (signedToken hmac secret h p) =
      [h, p, base64UrlEncode (hmac secret (h ++ [46] ++ p))] := by
  have he := not_dot_in_encode (hmac secret (h ++ [46] ++ p))
  have hshape : signedToken hmac secret h p =
      h ++ 46 :: (p ++ 46 :: base64UrlEncode (hmac secret (h ++ [46] ++ p))) := by
    simp [signedToken]
  rw [hshape, splitDots_dot_append _ _ hdh, splitDots_dot_append _ _ hdp,
    splitDots_no_dot _ he]

lemma verifyJwt_signedToken (hmac : Str → Str → Str) (parse : Str → Option ClaimMap)
    (secret h p : Str) (now : Int) (hsec : secret ≠ []) (hh : h ≠ []) (hp : p ≠ [])
    (hdh : 46 ∉ h) (hdp : 46 ∉ p)
    (hbytes : ∀ b ∈ hmac secret (h ++ [46] ++ p), b < 256)
    (hmne : hmac secret (h ++ [46] ++ p) ≠ []) :
    verifyJwt hmac parse secret (signedToken hmac secret h p) now = afterSig parse p now := by
  have htok : signedToken hmac secret h p ≠ [] := by
    rcases h with _ | ⟨c, t⟩
    · exact absurd rfl hh
    · simp [signedToken]
  have hsig : base64UrlDecode (base64UrlEncode (hmac secret (h ++ [46] ++ p))) =
      some (hmac secret (h ++ [46] ++ p)) := base64Url_round_trip _ hbytes
  have hene : base64UrlEncode (hmac secret (h ++ [46] ++ p)) ≠ [] :=
    base64UrlEncode_ne_nil _ hmne
  unfold verifyJwt
  rw [if_neg (by push_neg; exact ⟨hsec, htok⟩)]
  unfold verifyJwtBody
  rw [splitDots_signedToken hmac secret h p hdh hdp]
  simp only [List.get?]
  rw [if_neg (by push_neg; exact ⟨hh, hp, hene⟩)]
  rw [hsig]
  rcases hdec : base64UrlDecode p with _ | pj
  · simp [afterSig, hdec]
  · rcases hparse : parse pj with _ | m <;> simp [afterSig, hdec, hparse]

lemma jsStrictEqStr_eq_true (v : Option JVal) (s : Str) :
    jsStrictEqStr v s = true ↔ v = some (JVal.str s) := by
  cases v with
  | none => simp [jsStrictEqStr]
  | some jv =>
    cases jv with
    | num n => simp [jsStrictEqStr]
    | str t => simp [jsStrictEqStr]

lemma claimChecks_stamp (c : ClaimMap) (now1 now2 : Int) (h1 : now1 ≤ now2)
    (h2 : now2 < now1 + CONFIG_DEFAULT_EXPIRATION) :
    claimChecks (stampClaims c now1) now2 = true := by
  have hlt : decide (now1 + CONFIG_DEFAULT_EXPIRATION < now2) = false :=
    decide_eq_false (by omega)
  have hgt : decide (now2 < now1) = false := decide_eq_false (by omega)
  simp [claimChecks, stampClaims_exp, stampClaims_iat, stampClaims_iss, stampClaims_aud,
    truthy, jsLt, jsGt, toNumber, jsStrictEqStr, hlt, hgt]

lemma claimChecks_bad_iss_aud (m : ClaimMap) (now : Int)
    (hbad : lookupClaim m keyIss ≠ some (JVal.str CONFIG_TOKEN_ISSUER) ∨
      lookupClaim m keyAud ≠ some (JVal.str CONFIG_TOKEN_AUDIENCE)) :
    claimChecks m now = false := by
  have hfalse : (jsStrictEqStr (lookupClaim m keyIss) CONFIG_TOKEN_ISSUER &&
      jsStrictEqStr (lookupClaim m keyAud) CONFIG_TOKEN_AUDIENCE) = false := by
    rcases hbad with hb | hb
    · have : jsStrictEqStr (lookupClaim m keyIss) CONFIG_TOKEN_ISSUER = false := by
        rw [Bool.eq_false_iff, Ne, jsStrictEqStr_eq_true]; exact hb
      simp [this]
    · have : jsStrictEqStr (lookupClaim m keyAud) CONFIG_TOKEN_AUDIENCE = false := by
        rw [Bool.eq_false_iff, Ne, jsStrictEqStr_eq_true]; exact hb
      simp [this]
  unfold claimChecks
  rw [hfalse]
  split_ifs <;> simp_all

lemma claimChecks_result (m : ClaimMap) (now : Int)
    (hiss : lookupClaim m keyIss = some (JVal.str CONFIG_TOKEN_ISSUER))
    (haud : lookupClaim m keyAud = some (JVal.str CONFIG_TOKEN_AUDIENCE))
    (hiat : lookupClaim m keyIat = none ∨
      ∃ i : Int, lookupClaim m keyIat = some (JVal.num i) ∧ i ≤ now) :
    (lookupClaim m keyExp = none → claimChecks m now = true) ∧
    (∀ e : Int, lookupClaim m keyExp = some (JVal.num e) →
      (claimChecks m now = true ↔ ¬(e ≠ 0 ∧ e < now))) := by
  have hIA : (!(jsStrictEqStr (lookupClaim m keyIss) CONFIG_TOKEN_ISSUER &&
      jsStrictEqStr (lookupClaim m keyAud) CONFIG_TOKEN_AUDIENCE)) = false := by
    simp [hiss, haud, jsStrictEqStr]
  constructor
  · intro hexp
    rcases hiat with hi | ⟨i, hi, hile⟩
    · simp [claimChecks, hexp, hi, truthy, hIA]
    · have hd : decide (now < i) = false := decide_eq_false (by omega)
      simp [claimChecks, hexp, hi, truthy, jsGt, toNumber, hd, hIA]
  · intro e hexp
    rcases Classical.em (e ≠ 0 ∧ e < now) with hcase | hcase
    · have hcond : ((e != 0) && decide (e < now)) = true := by
        simp [hcase.1, hcase.2]
      simp [claimChecks, hexp, truthy, jsLt, toNumber, hcond, hcase]
    · have hcond : ((e != 0) && decide (e < now)) = false := by
        rcases not_and_or.mp hcase with hc | hc
        · simp [not_not.mp hc]
        · simp [decide_eq_false hc]
      rcases hiat with hi | ⟨i, hi, hile⟩
      · simp [claimChecks, hexp, hi, truthy, jsLt, toNumber, hcond, hIA, hcase]
      · have hd : decide (now < i) = false := decide_eq_false (by omega)
        simp [claimChecks, hexp, hi, truthy, jsLt, jsGt, toNumber, hcond, hd, hIA, hcase]

lemma verifyJwt_createJwt (hmac : Str → Str → Str) (stringify : ClaimMap → Str)
    (parse : Str → Option ClaimMap) (secret : Str) (c : ClaimMap) (now1 now2 : Int)
    (tok : Str) (hsec : secret ≠ [])
    (htok : createJwt hmac stringify secret c now1 = some tok)
    (hsb : ∀ b ∈ stringify (stampClaims c now1), b < 256)
    (hsne : stringify (stampClaims c now1) ≠ [])
    (hmb : ∀ b ∈ hmac secret (base64UrlEncode headerJson ++ [46] ++
      base64UrlEncode (stringify (stampClaims c now1))), b < 256)
    (hmne : hmac secret (base64UrlEncode headerJson ++ [46] ++
      base64UrlEncode (stringify (stampClaims c now1))) ≠ [])
    (hparse : parse (stringify (stampClaims c now1)) = some (stampClaims c now1))
    (h1 : now1 ≤ now2) (h2 : now2 < now1 + CONFIG_DEFAULT_EXPIRATION) :
    verifyJwt hmac parse secret tok now2 = true := by
  simp only [createJwt, if_neg hsec, Option.some.injEq] at htok
  have hshape : tok = signedToken hmac secret (base64UrlEncode headerJson)
      (base64UrlEncode (stringify (stampClaims c now1))) := by
    rw [← htok]; simp [signedToken, List.append_assoc]
  have hhne : headerJson ≠ [] := by decide
  rw [hshape, verifyJwt_signedToken hmac parse secret _ _ now2 hsec
    (base64UrlEncode_ne_nil _ hhne) (base64UrlEncode_ne_nil _ hsne)
    (not_dot_in_encode _) (not_dot_in_encode _) hmb hmne]
  simp [afterSig, base64Url_round_trip _ hsb, hparse, claimChecks_stamp c now1 now2 h1 h2]

/-- C1: for a valid (non-empty) secret and any custom claim set, verification
of a freshly issued token does succeed (`≠ false`) inside the validity window -
but the value returned on success is the literal boolean `true` (auth.js line
164), never the decoded claim mapping that the claim (and the function's own
JSDoc) promises.  The hypotheses supply the platform facts: HMAC output is
non-empty bytes, JSON stringify of the payload is non-empty bytes, and
JSON.parse inverts JSON.stringify on the signed payload. -/
theorem claim_verify_issue_round_trip_returns_true (hmac : Str → Str → Str)
    (stringify : ClaimMap → Str) (parse : Str → Option ClaimMap) (secret : Str)
    (c : ClaimMap) (now1 now2 : Int) (tok : Str) (hsec : secret ≠ [])
    (htok : createJwt hmac stringify secret c now1 = some tok)
    (hsb : ∀ b ∈ stringify (stampClaims c now1), b < 256)
    (hsne : stringify (stampClaims c now1) ≠ [])
    (hmb : ∀ b ∈ hmac secret (base64UrlEncode headerJson ++ [46] ++
      base64UrlEncode (stringify (stampClaims c now1))), b < 256)
    (hmne : hmac secret (base64UrlEncode headerJson ++ [46] ++
      base64UrlEncode (stringify (stampClaims c now1))) ≠ [])
    (hparse : parse (stringify (stampClaims c now1)) = some (stampClaims c now1))
    (h1 : now1 ≤ now2) (h2 : now2 < now1 + CONFIG_DEFAULT_EXPIRATION) :
    verifyJwt hmac parse secret tok now2 = true :=
  verifyJwt_createJwt hmac stringify parse secret c now1 now2 tok hsec htok hsb hsne
    hmb hmne hparse h1 h2

/-- Witness for C1 at a concrete secret, claim set, and clock. -/
theorem claim_verify_issue_round_trip_returns_true_witness :
    verifyJwt (fun _ _ => [5]) (fun _ => some (stampClaims [] 10)) [115]
      (base64UrlEncode headerJson ++ [46] ++ base64UrlEncode [3] ++ [46] ++
        base64UrlEncode [5]) 12 = true :=
  claim_verify_issue_round_trip_returns_true (fun _ _ => [5]) (fun _ => [3])
    (fun _ => some (stampClaims [] 10)) [115] [] 10 12 _ (by decide) (by decide)
    (by decide) (by decide) (by decide) (by decide) (by decide) (by decide) (by decide)

/-- C2: refreshing a validly issued token that carries the custom claim
`sub: "admin"` re-issues a token whose payload is `stampClaims [] now2`: the
`sub` claim is dropped (because `verifyJwt` returned the boolean `true`, whose
rest-destructuring is empty), contradicting the claim that custom claims are
preserved.  `iat` of the new token is the fresh time `now2 > now1`. -/
theorem claim_refresh_drops_custom_claims (hmac : Str → Str → Str)
    (stringify : ClaimMap → Str) (parse : Str → Option ClaimMap) (secret : Str)
    (now1 now2 : Int) (tok : Str) (hsec : secret ≠ [])
    (htok : createJwt hmac stringify secret
      [(codes "sub", JVal.str (codes "admin"))] now1 = some tok)
    (hsb : ∀ b ∈ stringify (stampClaims [(codes "sub", JVal.str (codes "admin"))] now1),
      b < 256)
    (hsne : stringify (stampClaims [(codes "sub", JVal.str (codes "admin"))] now1) ≠ [])
    (hmb : ∀ b ∈ hmac secret (base64UrlEncode headerJson ++ [46] ++
      base64UrlEncode (stringify (stampClaims
        [(codes "sub", JVal.str (codes "admin"))] now1))), b < 256)
    (hmne : hmac secret (base64UrlEncode headerJson ++ [46] ++
      base64UrlEncode (stringify (stampClaims
        [(codes "sub", JVal.str (codes "admin"))] now1))) ≠ [])
    (hparse : parse (stringify (stampClaims [(codes "sub", JVal.str (codes "admin"))] now1)) =
      some (stampClaims [(codes "sub", JVal.str (codes "admin"))] now1))
    (h1 : now1 < now2) (h2 : now2 < now1 + CONFIG_DEFAULT_EXPIRATION) :
    refreshJwt hmac parse stringify secret tok now2 =
      createJwt hmac stringify secret [] now2 ∧
    lookupClaim (stampClaims [] now2) (codes "sub") = none ∧
    lookupClaim (stampClaims [] now2) keyIat = some (JVal.num now2) := by
  have hver := verifyJwt_createJwt hmac stringify parse secret
    [(codes "sub", JVal.str (codes "admin"))] now1 now2 tok hsec htok hsb hsne hmb hmne
    hparse (le_of_lt h1) h2
  have htokne : tok ≠ [] := by
    simp only [createJwt, if_neg hsec, Option.some.injEq] at htok
    rw [← htok]
    have hhne : base64UrlEncode headerJson ≠ [] := base64UrlEncode_ne_nil _ (by decide)
    simp [List.append_eq_nil, hhne]
  refine ⟨?_, ?_, stampClaims_iat [] now2⟩
  · unfold refreshJwt
    rw [if_neg (by push_neg; exact ⟨hsec, htokne⟩)]
    simp [hver]
  · rw [stampClaims_other _ _ _ (by decide) (by decide) (by decide) (by decide)]
    rfl

/-- Witness for C2 at a concrete secret, clocks 10 and 20. -/
theorem claim_refresh_drops_custom_claims_witness :
    refreshJwt (fun _ _ => [5])
        (fun _ => some (stampClaims [(codes "sub", JVal.str (codes "admin"))] 10))
        (fun _ => [3]) [115]
        (base64UrlEncode headerJson ++ [46] ++ base64UrlEncode [3] ++ [46] ++
          base64UrlEncode [5]) 20 =
      createJwt (fun _ _ => [5]) (fun _ => [3]) [115] [] 20 ∧
    lookupClaim (stampClaims [] 20) (codes "sub") = none ∧
    lookupClaim (stampClaims [] 20) keyIat = some (JVal.num 20) :=
  claim_refresh_drops_custom_claims (fun _ _ => [5])
    (fun _ => [3]) (fun _ => some (stampClaims [(codes "sub", JVal.str (codes "admin"))] 10))
    [115] 10 20 _ (by decide) (by decide) (by decide) (by decide) (by decide) (by decide)
    (by decide) (by decide) (by decide)

/-- C3 counterexample: a well-signed token whose payload has NO `exp` claim at
all (only correct `iss`/`aud`) is ACCEPTED by `verifyJwt` - the code guards the
expiry check with `payloadData.exp &&`, so a missing `exp` skips the check,
refuting "verify rejects every token whose payload lacks an exp claim". -/
theorem claim_verify_expiry_cex :
    lookupClaim [(keyIss, JVal.str CONFIG_TOKEN_ISSUER),
      (keyAud, JVal.str CONFIG_TOKEN_AUDIENCE)] keyExp = none ∧
    verifyJwt (fun _ _ => [7])
      (fun _ => some [(keyIss, JVal.str CONFIG_TOKEN_ISSUER),
        (keyAud, JVal.str CONFIG_TOKEN_AUDIENCE)])
      [115] (codes "h" ++ [46] ++ codes "AA" ++ [46] ++ base64UrlEncode [7]) 100 = true :=
  ⟨by decide, by decide⟩

/-- C3 amended: on a well-signed, well-formed token, `verifyJwt` applies the
expiry check only when `exp` is present and truthy: with `exp` absent the token
is accepted outright, and with a numeric `exp` the token is accepted iff NOT
(`exp` is non-zero and strictly less than `now`) - so `exp == now`, `exp == 0`
and missing `exp` all pass, while the issued-at check accepts `iat == now`. -/
theorem claim_verify_expiry_check_amended (hmac : Str → Str → Str)
    (parse : Str → Option ClaimMap) (secret h p pj : Str) (m : ClaimMap) (now : Int)
    (hsec : secret ≠ []) (hh : h ≠ []) (hp : p ≠ []) (hdh : 46 ∉ h) (hdp : 46 ∉ p)
    (hbytes : ∀ b ∈ hmac secret (h ++ [46] ++ p), b < 256)
    (hmne : hmac secret (h ++ [46] ++ p) ≠ [])
    (hdec : base64UrlDecode p = some pj) (hparse : parse pj = some m)
    (hiss : lookupClaim m keyIss = some (JVal.str CONFIG_TOKEN_ISSUER))
    (haud : lookupClaim m keyAud = some (JVal.str CONFIG_TOKEN_AUDIENCE))
    (hiat : lookupClaim m keyIat = none ∨
      ∃ i : Int, lookupClaim m keyIat = some (JVal.num i) ∧ i ≤ now) :
    (lookupClaim m keyExp = none →
      verifyJwt hmac parse secret (signedToken hmac secret h p) now = true) ∧
    (∀ e : Int, lookupClaim m keyExp = some (JVal.num e) →
      (verifyJwt hmac parse secret (signedToken hmac secret h p) now = true ↔
        ¬(e ≠ 0 ∧ e < now))) := by
  have hv := verifyJwt_signedToken hmac parse secret h p now hsec hh hp hdh hdp hbytes hmne
  have hAS : afterSig parse p now = claimChecks m now := by simp [afterSig, hdec, hparse]
  have hcc := claimChecks_result m now hiss haud hiat
  constructor
  · intro hexp
    rw [hv, hAS]
    exact hcc.1 hexp
  · intro e hexp
    rw [hv, hAS]
    exact hcc.2 e hexp

/-- Witness for the amended C3 at the expiry boundary `exp == now`: the token
is accepted. -/
theorem claim_verify_expiry_check_amended_witness :
    verifyJwt (fun _ _ => [7])
      (fun _ => some [(keyExp, JVal.num 100), (keyIss, JVal.str CONFIG_TOKEN_ISSUER),
        (keyAud, JVal.str CONFIG_TOKEN_AUDIENCE)])
      [115] (signedToken (fun _ _ => [7]) [115] (codes "h") (codes "AA")) 100 = true :=
  ((claim_verify_expiry_check_amended (fun _ _ => [7])
      (fun _ => some [(keyExp, JVal.num 100), (keyIss, JVal.str CONFIG_TOKEN_ISSUER),
        (keyAud, JVal.str CONFIG_TOKEN_AUDIENCE)])
      [115] (codes "h") (codes "AA") [0]
      [(keyExp, JVal.num 100), (keyIss, JVal.str CONFIG_TOKEN_ISSUER),
        (keyAud, JVal.str CONFIG_TOKEN_AUDIENCE)]
      100 (by decide) (by decide) (by decide)
      (by decide) (by decide) (by decide) (by decide) (by decide) (by decide)
      (by decide) (by decide) (Or.inl (by decide))).2 100 (by decide)).mpr (by decide)

/-- C4: a well-signed token (re-signed with the real secret) whose parsed
payload does not carry the exact fixed issuer string in `iss`, or the exact
fixed audience string in `aud`, always fails verification. -/
theorem claim_verify_rejects_wrong_issuer_audience (hmac : Str → Str → Str)
    (parse : Str → Option ClaimMap) (secret h p pj : Str) (m : ClaimMap) (now : Int)
    (hsec : secret ≠ []) (hh : h ≠ []) (hp : p ≠ []) (hdh : 46 ∉ h) (hdp : 46 ∉ p)
    (hbytes : ∀ b ∈ hmac secret (h ++ [46] ++ p), b < 256)
    (hmne : hmac secret (h ++ [46] ++ p) ≠ [])
    (hdec : base64UrlDecode p = some pj) (hparse : parse pj = some m)
    (hbad : lookupClaim m keyIss ≠ some (JVal.str CONFIG_TOKEN_ISSUER) ∨
      lookupClaim m keyAud ≠ some (JVal.str CONFIG_TOKEN_AUDIENCE)) :
    verifyJwt hmac parse secret (signedToken hmac secret h p) now = false := by
  rw [verifyJwt_signedToken hmac parse secret h p now hsec hh hp hdh hdp hbytes hmne]
  simp [afterSig, hdec, hparse, claimChecks_bad_iss_aud m now hbad]

/-- Witness for C4: a token carrying `iss: "evil"` under a valid signature is
rejected. -/
theorem claim_verify_rejects_wrong_issuer_audience_witness :
    verifyJwt (fun _ _ => [7])
      (fun _ => some [(keyIss, JVal.str (codes "evil")),
        (keyAud, JVal.str CONFIG_TOKEN_AUDIENCE)])
      [115] (signedToken (fun _ _ => [7]) [115] (codes "h") (codes "AA")) 100 = false :=
  claim_verify_rejects_wrong_issuer_audience (fun _ _ => [7])
    (fun _ => some [(keyIss, JVal.str (codes "evil")),
      (keyAud, JVal.str CONFIG_TOKEN_AUDIENCE)])
    [115] (codes "h") (codes "AA") [0]
    [(keyIss, JVal.str (codes "evil")), (keyAud, JVal.str CONFIG_TOKEN_AUDIENCE)]
    100 (by decide) (by decide) (by decide)
    (by decide) (by decide) (by decide) (by decide) (by decide) (by decide)
    (Or.inl (by decide))

/-- C5: verification never propagates an exception: its value is always one of
the booleans, and whenever the try-block body raises (`Except.error`, covering
decode and parse exceptions), the catch converts the result to `false`. -/
theorem claim_verify_never_throws (hmac : Str → Str → Str)
    (parse : Str → Option ClaimMap) (secret token : Str) (now : Int) :
    (verifyJwt hmac parse secret token now = false ∨
      verifyJwt hmac parse secret token now = true) ∧
    (∀ e : VerifyErr, verifyJwtBody hmac parse secret token now = Except.error e →
      verifyJwt hmac parse secret token now = false) := by
  constructor
  · cases hb : verifyJwt hmac parse secret token now
    · exact Or.inl rfl
    · exact Or.inr rfl
  · intro e he
    unfold verifyJwt
    by_cases hg : secret = [] ∨ token = []
    · rw [if_pos hg]
    · rw [if_neg hg, he]

/-- Witness for C5: a token whose signature segment is not decodable raises
inside the body and `verifyJwt` yields `false`. -/
theorem claim_verify_never_throws_witness :
    verifyJwtBody (fun _ _ => [1]) (fun _ => none) [115] (codes "a.b.!") 0 =
        Except.error VerifyErr.decodeErr ∧
      verifyJwt (fun _ _ => [1]) (fun _ => none) [115] (codes "a.b.!") 0 = false :=
  ⟨rfl, (claim_verify_never_throws (fun _ _ => [1]) (fun _ => none) [115]
    (codes "a.b.!") 0).2 VerifyErr.decodeErr rfl⟩

/-- C6: there is no lifetime parameter.  `createJwt(secret, payload, logger)`
always stamps `exp = iat + CONFIG.DEFAULT_EXPIRATION` with the fixed constant
28800 (8 hours); the expiry offset cannot be chosen per call, although the
function's own JSDoc documents an `expirationInSeconds` parameter. -/
theorem claim_issue_fixed_lifetime (hmac : Str → Str → Str)
    (stringify : ClaimMap → Str) (secret : Str) (c : ClaimMap) (now : Int) :
    CONFIG_DEFAULT_EXPIRATION = 28800 ∧
    lookupClaim (stampClaims c now) keyExp = some (JVal.num (now + 28800)) ∧
    lookupClaim (stampClaims c now) keyIat = some (JVal.num now) ∧
    (secret ≠ [] → createJwt hmac stringify secret c now =
      some (base64UrlEncode headerJson ++ [46] ++
        base64UrlEncode (stringify (stampClaims c now)) ++ [46] ++
        base64UrlEncode (hmac secret (base64UrlEncode headerJson ++ [46] ++
          base64UrlEncode (stringify (stampClaims c now)))))) := by
  refine ⟨by decide, ?_, stampClaims_iat c now, ?_⟩
  · have h := stampClaims_exp c now
    rwa [show CONFIG_DEFAULT_EXPIRATION = 28800 by decide] at h
  · intro hs
    simp [createJwt, if_neg hs, List.append_assoc]

/-- Witness for C6 at a concrete secret and clock. -/
theorem claim_issue_fixed_lifetime_witness :
    createJwt (fun _ _ => [1]) (fun _ => [2]) [115] [] 0 =
      some (base64UrlEncode headerJson ++ [46] ++ base64UrlEncode [2] ++ [46] ++
        base64UrlEncode [1]) :=
  (claim_issue_fixed_lifetime (fun _ _ => [1]) (fun _ => [2]) [115] [] 0).2.2.2 (by decide)

/-- C7: the payload actually signed stamps fresh `iat`/`exp`/`iss`/`aud` over
whatever the caller supplied - caller-supplied values for those four names
never survive - while every other caller-supplied entry is preserved. -/
theorem claim_standard_claims_not_overridable (c : ClaimMap) (now : Int) (k : Str) :
    lookupClaim (stampClaims c now) keyIat = some (JVal.num now) ∧
    lookupClaim (stampClaims c now) keyExp =
      some (JVal.num (now + CONFIG_DEFAULT_EXPIRATION)) ∧
    lookupClaim (stampClaims c now) keyIss = some (JVal.str CONFIG_TOKEN_ISSUER) ∧
    lookupClaim (stampClaims c now) keyAud = some (JVal.str CONFIG_TOKEN_AUDIENCE) ∧
    (k ≠ keyIat → k ≠ keyExp → k ≠ keyIss → k ≠ keyAud →
      lookupClaim (stampClaims c now) k = lookupClaim c k) :=
  ⟨stampClaims_iat c now, stampClaims_exp c now, stampClaims_iss c now,
    stampClaims_aud c now, fun h1 h2 h3 h4 => stampClaims_other c now k h1 h2 h3 h4⟩

/-- Witness for C7: a caller-supplied `iat` is overridden and a custom `sub`
survives. -/
theorem claim_standard_claims_not_overridable_witness :
    lookupClaim (stampClaims [(keyIat, JVal.num 999),
      (codes "sub", JVal.str (codes "admin"))] 5) keyIat = some (JVal.num 5) ∧
    lookupClaim (stampClaims [(keyIat, JVal.num 999),
        (codes "sub", JVal.str (codes "admin"))] 5) (codes "sub") =
      lookupClaim [(keyIat, JVal.num 999),
        (codes "sub", JVal.str (codes "admin"))] (codes "sub") :=
  ⟨(claim_standard_claims_not_overridable
      [(keyIat, JVal.num 999), (codes "sub", JVal.str (codes "admin"))] 5 (codes "sub")).1,
    (claim_standard_claims_not_overridable
      [(keyIat, JVal.num 999), (codes "sub", JVal.str (codes "admin"))] 5
      (codes "sub")).2.2.2.2 (by decide) (by decide) (by decide) (by decide)⟩

/-- C8 counterexample: with default options the emitted header is NOT the
claimed `auth_token=<t>; Path=/admin; Max-Age=<n>; HttpOnly; Secure;
SameSite=Strict` - the code writes `HttpOnly=true` and `Secure=true`, never the
bare attributes. -/
theorem claim_cookie_header_format_cex :
    createAuthCookie (codes "T") 5 defaultCookieOptions ≠
      some (codes "auth_token=T; Path=/admin; Max-Age=5; HttpOnly; Secure; SameSite=Strict") :=
  by decide

/-- C8 amended: with default options `createAuthCookie` emits exactly
`auth_token=<t>; Path=/admin; Max-Age=<n>; HttpOnly=true; Secure=true;
SameSite=Strict` (attribute order as claimed, but `HttpOnly`/`Secure` carry
`=true`), and explicitly disabling `secure` emits `Secure=false` instead of
omitting the attribute. -/
theorem claim_cookie_header_format_amended (t : Str) (n : Int) (ht : t ≠ []) :
    createAuthCookie t n defaultCookieOptions =
      some (codes "auth_token=" ++ t ++ codes "; Path=/admin; Max-Age=" ++ intToStr n ++
        codes "; HttpOnly=true; Secure=true; SameSite=Strict") ∧
    createAuthCookie t n ⟨none, none, some false, none⟩ =
      some (codes "auth_token=" ++ t ++ codes "; Path=/admin; Max-Age=" ++ intToStr n ++
        codes "; HttpOnly=true; Secure=false; SameSite=Strict") := by
  have e1 : codes "auth_token=" = CONFIG_COOKIE_NAME ++ [61] := by decide
  have e2 : codes "; Path=/admin; Max-Age=" =
      codes "; " ++ codes "Path=" ++ CONFIG_COOKIE_PATH ++ codes "; " ++
        codes "Max-Age=" := by decide
  have e3 : codes "; HttpOnly=true; Secure=true; SameSite=Strict" =
      codes "; " ++ codes "HttpOnly=true" ++ codes "; " ++ codes "Secure=" ++
        codes "true" ++ codes "; " ++ codes "SameSite=" ++ codes "Strict" := by decide
  have e4 : codes "; HttpOnly=true; Secure=false; SameSite=Strict" =
      codes "; " ++ codes "HttpOnly=true" ++ codes "; " ++ codes "Secure=" ++
        codes "false" ++ codes "; " ++ codes "SameSite=" ++ codes "Strict" := by decide
  constructor
  · rw [e1, e2, e3]
    simp [createAuthCookie, if_neg ht, defaultCookieOptions, joinSemi, List.append_assoc]
  · rw [e1, e2, e4]
    simp [createAuthCookie, if_neg ht, joinSemi, List.append_assoc]

/-- Witness for the amended C8 at a concrete token and max-age. -/
theorem claim_cookie_header_format_amended_witness :
    createAuthCookie (codes "T") 5 defaultCookieOptions =
      some (codes "auth_token=" ++ codes "T" ++ codes "; Path=/admin; Max-Age=" ++
        intToStr 5 ++ codes "; HttpOnly=true; Secure=true; SameSite=Strict") :=
  (claim_cookie_header_format_amended (codes "T") 5 (by decide)).1

/-- C10: the verification result depends on the header segment only through
the signature: two tokens with the same payload segment, each carrying a valid
signature over its own header, verify identically - the header is never
deserialized, so an arbitrary (non-JSON, wrong-alg) header is accepted
whenever the payload claims pass. -/
theorem claim_verify_header_independent (hmac : Str → Str → Str)
    (parse : Str → Option ClaimMap) (secret h1 h2 p : Str) (now : Int)
    (hsec : secret ≠ []) (hh1 : h1 ≠ []) (hh2 : h2 ≠ []) (hp : p ≠ [])
    (hdh1 : 46 ∉ h1) (hdh2 : 46 ∉ h2) (hdp : 46 ∉ p)
    (hbytes1 : ∀ b ∈ hmac secret (h1 ++ [46] ++ p), b < 256)
    (hmne1 : hmac secret (h1 ++ [46] ++ p) ≠ [])
    (hbytes2 : ∀ b ∈ hmac secret (h2 ++ [46] ++ p), b < 256)
    (hmne2 : hmac secret (h2 ++ [46] ++ p) ≠ []) :
    verifyJwt hmac parse secret (signedToken hmac secret h1 p) now =
      verifyJwt hmac parse secret (signedToken hmac secret h2 p) now := by
  rw [verifyJwt_signedToken hmac parse secret h1 p now hsec hh1 hp hdh1 hdp hbytes1 hmne1,
    verifyJwt_signedToken hmac parse secret h2 p now hsec hh2 hp hdh2 hdp hbytes2 hmne2]

/-- Witness for C10: two tokens over distinct header segments but the same
payload verify identically. -/
theorem claim_verify_header_independent_witness :
    verifyJwt (fun _ _ => [7]) (fun _ => none) [115]
        (signedToken (fun _ _ => [7]) [115] (codes "h") (codes "AA")) 100 =
      verifyJwt (fun _ _ => [7]) (fun _ => none) [115]
        (signedToken (fun _ _ => [7]) [115] (codes "x") (codes "AA")) 100 :=
  claim_verify_header_independent (fun _ _ => [7]) (fun _ => none) [115]
    (codes "h") (codes "x") (codes "AA") 100 (by decide) (by decide) (by decide)
    (by decide) (by decide) (by decide) (by decide) (by decide) (by decide)
    (by decide) (by decide)
